import Mathlib

/-!
Verification development for the LingoSphere single-page application
(src/index.tsx). The definitions below are a shallow embedding of the
component state and of the handlers of the exam subsystem, together with
models of every call site of the external generative-model API.
-/

namespace LingoSphere

/-- Difficulty levels, src/index.tsx line 7. -/
inductive Difficulty where
  | A1
  | B1
  | C1
deriving DecidableEq, Repr

/-- Tutor personas, src/index.tsx line 9. -/
inductive Persona where
  | friendly
  | formal
deriving DecidableEq, Repr

/-- The eleven views of the application, src/index.tsx line 10. -/
inductive View where
  | home
  | story
  | vocabulary
  | translation
  | pronunciation
  | conversation
  | writingAnalysis
  | phrasalVerbs
  | phrases
  | dictionary
  | exams
deriving DecidableEq, Repr

/-- Exam types, src/index.tsx line 11. -/
inductive ExamType where
  | comprehensive
  | reading_vocab
  | writing_grammar
  | listening_speaking
deriving DecidableEq, Repr

/-- Exam phases, src/index.tsx line 12. -/
inductive ExamState where
  | setup
  | inProgress
  | results
deriving DecidableEq, Repr

/-- Question types, src/index.tsx line 13. -/
inductive QuestionType where
  | mcq
  | writing
  | speaking
  | listening
deriving DecidableEq, Repr

/-- ExamSettings interface, src/index.tsx lines 21-24. -/
structure ExamSettings where
  type : ExamType
  questions : Nat
deriving DecidableEq, Repr

/-- ExamQuestion interface, src/index.tsx lines 26-31. The options field is
optional in the source. -/
structure ExamQuestion where
  id : Int
  type : QuestionType
  text : String
  options : Option (List String)
deriving DecidableEq, Repr

/-- UserAnswer interface, src/index.tsx lines 33-36. -/
structure UserAnswer where
  questionId : Int
  answer : String
deriving DecidableEq, Repr

/-- One entry of ExamResult.feedback, src/index.tsx lines 41-47. -/
structure FeedbackItem where
  questionId : Int
  questionText : String
  userAnswer : String
  isCorrect : Bool
  feedback : String
deriving DecidableEq, Repr

/-- ExamResult interface, src/index.tsx lines 38-48. -/
structure ExamResult where
  overallScore : Int
  summary : String
  feedback : List FeedbackItem
deriving DecidableEq, Repr

/-- Settings interface, src/index.tsx lines 15-19 (theme omitted: it only
drives CSS class selection). -/
structure Settings where
  difficulty : Difficulty
  persona : Persona
deriving DecidableEq, Repr

/-- The component state relevant to the exam subsystem and to the claims:
the useState hooks of src/index.tsx lines 80-117 that the exam handlers
read or write. -/
structure AppState where
  settings : Settings
  activeView : View
  error : String
  isLoading : Bool
  examState : ExamState
  examSettings : ExamSettings
  examQuestions : List ExamQuestion
  currentQuestionIndex : Nat
  userAnswers : List UserAnswer
  currentAnswer : String
  examResults : Option ExamResult
deriving DecidableEq, Repr

/-- Initial component state, from the useState initializers at
src/index.tsx lines 80-117. -/
def initState : AppState where
  settings := { difficulty := Difficulty.A1, persona := Persona.friendly }
  activeView := View.home
  error := ""
  isLoading := false
  examState := ExamState.setup
  examSettings := { type := ExamType.comprehensive, questions := 5 }
  examQuestions := []
  currentQuestionIndex := 0
  userAnswers := []
  currentAnswer := ""
  examResults := none

/-- changeView handler, src/index.tsx lines 177-191: clears the error,
switches the view, and resets examState to setup when leaving the exams
view. The per-view content generators do not touch any exam field. -/
def changeView (v : View) (s : AppState) : AppState :=
  { s with
    error := ""
    activeView := v
    examState := if v = View.exams then s.examState else ExamState.setup }

/-- The synchronous prefix of startExam, src/index.tsx lines 377-382:
sets the loader and clears the whole exam run. -/
def startExamReset (s : AppState) : AppState :=
  { s with
    isLoading := true
    examQuestions := []
    userAnswers := []
    currentQuestionIndex := 0
    currentAnswer := ""
    examResults := none }

/-- The continuation of startExam after the model call, src/index.tsx
lines 401-413. The response is modeled as:
none = the API call threw (generateContent returned null after setting the
generic error, line 204); some none = a response whose text failed to
parse as a question list (line 408); some (some qs) = a parsed list. -/
def startExamComplete (s : AppState) (resp : Option (Option (List ExamQuestion))) : AppState :=
  match resp with
  | none =>
      { s with error := "An error occurred. Please try again.", isLoading := false }
  | some none =>
      { s with error := "Failed to create the exam. Please try again.", isLoading := false }
  | some (some qs) =>
      { s with examQuestions := qs, examState := ExamState.inProgress, isLoading := false }

/-- The updated answer list computed by handleNextQuestion, src/index.tsx
line 418: drop any previous answer with the same questionId, append the
current one. -/
def updatedAnswers (s : AppState) (q : ExamQuestion) : List UserAnswer :=
  s.userAnswers.filter (fun a => a.questionId != q.id) ++ [{ questionId := q.id, answer := s.currentAnswer }]

/-- The advance branch of handleNextQuestion, src/index.tsx lines 422-424:
move to the next question and restore any previously stored answer for it
(the JS expression nextQuestionAnswer?.answer || empty collapses a missing
entry to the empty string). Operates on the state that already holds the
updated answer list. -/
def advanceAfter (s : AppState) : AppState :=
  let nextAnswer : String :=
    match s.examQuestions[s.currentQuestionIndex + 1]? with
    | some q2 =>
        match s.userAnswers.find? (fun a => a.questionId == q2.id) with
        | some a => a.answer
        | none => ""
    | none => ""
  { s with currentQuestionIndex := s.currentQuestionIndex + 1, currentAnswer := nextAnswer }

/-- The synchronous prefix of gradeExam, src/index.tsx lines 431-432. -/
def gradeBegin (s : AppState) : AppState :=
  { s with isLoading := true, examState := ExamState.results }

/-- The continuation of gradeExam after the model call, src/index.tsx
lines 465-478. A successful parse stores the results; a parse failure or
an API failure sets the grading error and drops back to setup (for an API
failure generateContent first sets the generic message, line 204, which
line 475 then overwrites). -/
def gradeComplete (s : AppState) (resp : Option (Option ExamResult)) : AppState :=
  match resp with
  | some (some r) => { s with examResults := some r, isLoading := false }
  | _ =>
      { s with
        error := "Failed to grade the exam. Please try again later."
        examState := ExamState.setup
        isLoading := false }

/-- The grading request: the data interpolated into the grading prompt,
src/index.tsx lines 457-461. -/
structure GradeRequest where
  questions : List ExamQuestion
  answers : List UserAnswer
deriving DecidableEq, Repr

/-- handleNextQuestion, src/index.tsx lines 416-428, composed with the
gradeExam continuation when it fires on the last question. Reading a
question at an out-of-range index throws in JS before any state update,
so that case leaves the state unchanged and sends nothing. The returned
option is the grading request sent, if any. -/
def handleNextQuestion (s : AppState) (g : Option (Option ExamResult)) :
    Option GradeRequest × AppState :=
  match s.examQuestions[s.currentQuestionIndex]? with
  | none => (none, s)
  | some q =>
      let s1 : AppState := { s with userAnswers := updatedAnswers s q }
      if s.currentQuestionIndex < s.examQuestions.length - 1 then
        (none, advanceAfter s1)
      else
        (some { questions := s1.examQuestions, answers := s1.userAnswers },
          gradeComplete (gradeBegin s1) g)

/-- The user and environment events that drive the exam subsystem, each
guarded by the availability of the corresponding control in renderExams
(src/index.tsx lines 706-807) and the navigation (lines 863-896). Model
responses ride on the events that await them. -/
inductive Event where
  | changeViewEv (v : View)
  | setExamType (t : ExamType)
  | setExamQuestions (n : Nat)
  | startExamEv (resp : Option (Option (List ExamQuestion)))
  | answerInputEv (a : String)
  | nextQuestionEv (g : Option (Option ExamResult))
  | takeAnotherEv
deriving DecidableEq, Repr

/-- One atomic interaction: none when the control driving the event is not
rendered or is disabled; otherwise the grading request emitted (if any)
and the successor state. Guards are read off renderExams: the setup
controls render only in the setup phase with no loader (lines 707, 782);
the answer inputs and the next button render only in progress with a
non-empty question list (lines 743-777), the next button additionally
requires a non-empty current answer (line 775); the results button
requires parsed results and no loader (lines 711-738). -/
def stepFn (s : AppState) (e : Event) : Option (Option GradeRequest × AppState) :=
  match e with
  | Event.changeViewEv v => some (none, changeView v s)
  | Event.setExamType t =>
      if s.activeView = View.exams ∧ s.examState = ExamState.setup ∧ s.isLoading = false then
        some (none, { s with examSettings := { s.examSettings with type := t } })
      else none
  | Event.setExamQuestions n =>
      if (n = 5 ∨ n = 10 ∨ n = 15) ∧
          s.activeView = View.exams ∧ s.examState = ExamState.setup ∧ s.isLoading = false then
        some (none, { s with examSettings := { s.examSettings with questions := n } })
      else none
  | Event.startExamEv resp =>
      if s.activeView = View.exams ∧ s.examState = ExamState.setup ∧ s.isLoading = false then
        some (none, startExamComplete (startExamReset s) resp)
      else none
  | Event.answerInputEv a =>
      if s.activeView = View.exams ∧ s.examState = ExamState.inProgress ∧
          s.isLoading = false ∧ s.examQuestions ≠ [] then
        match s.examQuestions[s.currentQuestionIndex]? with
        | some q =>
            match q.type, q.options with
            | QuestionType.mcq, some os =>
                if a ∈ os then some (none, { s with currentAnswer := a }) else none
            | QuestionType.mcq, none => none
            | _, _ => some (none, { s with currentAnswer := a })
        | none => none
      else none
  | Event.nextQuestionEv g =>
      if s.activeView = View.exams ∧ s.examState = ExamState.inProgress ∧
          s.isLoading = false ∧ s.examQuestions ≠ [] ∧ s.currentAnswer ≠ "" then
        some (handleNextQuestion s g)
      else none
  | Event.takeAnotherEv =>
      if s.activeView = View.exams ∧ s.examState = ExamState.results ∧
          s.isLoading = false ∧ s.examResults.isSome then
        some (none, { s with examState := ExamState.setup, examResults := none })
      else none

/-- A single transition of the application, labelled by the grading
request it emits, if any. -/
abbrev step (s : AppState) (e : Event) (r : Option GradeRequest) (s' : AppState) : Prop :=
  stepFn s e = some (r, s')

/-- Some event takes s to s1. -/
def stepRel (s s1 : AppState) : Prop := ∃ e r, step s e r s1

/-- States reachable from the initial component state. -/
def Reaches (s : AppState) : Prop := Relation.ReflTransGen stepRel initState s

/-- Abstraction of what renderExams (src/index.tsx lines 706-807) puts on
screen for a given state, one constructor per screen. -/
inductive ExamView where
  | skeleton
  | grading
  | resultsView (overallScore : Int) (summary : String) (feedback : List FeedbackItem)
  | loadingQuestions
  | questionView (number total : Nat) (q : Option ExamQuestion) (answer : String) (nextLabel : String)
  | setupView (cfg : ExamSettings) (startEnabled : Bool)
deriving DecidableEq, Repr

/-- renderExams, src/index.tsx lines 706-807, branch for branch. -/
def renderExams (s : AppState) : ExamView :=
  if s.isLoading = true ∧ s.examState ≠ ExamState.results then ExamView.skeleton
  else if s.examState = ExamState.results then
    match s.examResults with
    | none => ExamView.grading
    | some r =>
        if s.isLoading then ExamView.grading
        else ExamView.resultsView r.overallScore r.summary r.feedback
  else if s.examState = ExamState.inProgress then
    if s.examQuestions = [] then ExamView.loadingQuestions
    else
      ExamView.questionView (s.currentQuestionIndex + 1) s.examQuestions.length
        s.examQuestions[s.currentQuestionIndex]? s.currentAnswer
        (if s.currentQuestionIndex < s.examQuestions.length - 1 then "Next Question"
         else "Finish & Grade Exam")
  else ExamView.setupView s.examSettings (!s.isLoading)

/-! ### The call sites of the external model API -/

/-- The difficulty labels interpolated into prompts, src/index.tsx line 57. -/
def difficultyLevels : Difficulty → String
  | Difficulty.A1 => "Beginner"
  | Difficulty.B1 => "Intermediate"
  | Difficulty.C1 => "Advanced"

/-- System instructions per persona, src/index.tsx lines 59-62. -/
def personaInstructions : Persona → String
  | Persona.friendly => "You are a friendly and encouraging English tutor. Your feedback is positive and gentle."
  | Persona.formal => "You are a formal English examiner. Your feedback is precise, professional, and direct."

/-- The literal of a question type as it appears in JSON. -/
def questionTypeLit : QuestionType → String
  | QuestionType.mcq => "mcq"
  | QuestionType.writing => "writing"
  | QuestionType.speaking => "speaking"
  | QuestionType.listening => "listening"

/-- The literal of an exam type as interpolated into the creation prompt,
src/index.tsx line 400. -/
def examTypeLit : ExamType → String
  | ExamType.comprehensive => "comprehensive"
  | ExamType.reading_vocab => "reading_vocab"
  | ExamType.writing_grammar => "writing_grammar"
  | ExamType.listening_speaking => "listening_speaking"

/-- A JSON string literal (escaping of embedded quotes is not modeled). -/
def jsonString (s : String) : String := "\"" ++ s ++ "\""

/-- JSON.stringify of one ExamQuestion: fields in declaration order, the
optional options field omitted when absent. -/
def stringifyQuestion (q : ExamQuestion) : String :=
  "\x7b\"id\":" ++ toString q.id ++ ",\"type\":" ++ jsonString (questionTypeLit q.type) ++
    ",\"text\":" ++ jsonString q.text ++
    (match q.options with
     | none => ""
     | some os => ",\"options\":[" ++ String.intercalate "," (os.map jsonString) ++ "]") ++
    "\x7d"

/-- JSON.stringify of the question list. -/
def stringifyQuestions (qs : List ExamQuestion) : String :=
  "[" ++ String.intercalate "," (qs.map stringifyQuestion) ++ "]"

/-- JSON.stringify of one UserAnswer. -/
def stringifyAnswer (a : UserAnswer) : String :=
  "\x7b\"questionId\":" ++ toString a.questionId ++ ",\"answer\":" ++ jsonString a.answer ++ "\x7d"

/-- JSON.stringify of the answer list. -/
def stringifyAnswers (as : List UserAnswer) : String :=
  "[" ++ String.intercalate "," (as.map stringifyAnswer) ++ "]"

/-- A request to the model API: the arguments handed to
ai.models.generateContent (src/index.tsx lines 160, 195-201) or sent
through a chat session (line 288). -/
structure ModelRequest where
  model : String
  contents : String
  responseJson : Bool
  systemInstruction : Option String
deriving DecidableEq, Repr

/-- The chat session created by initializeChat, src/index.tsx lines
270-279: every message sent through it uses the model fixed at creation. -/
structure ChatSession where
  model : String
  systemInstruction : String
deriving DecidableEq, Repr

/-- initializeChat, src/index.tsx lines 272-275. -/
def initializeChat (d : Difficulty) (p : Persona) : ChatSession :=
  { model := "gemini-2.5-flash"
    systemInstruction := personaInstructions p ++
      " You are having a conversation with a " ++ difficultyLevels d ++ " level English learner." }

/-- Every call site of the external model API in src/index.tsx, with the
data each interpolates into its prompt. -/
inductive ApiCall where
  | wordOfTheDay
  | storyGenerate (d : Difficulty)
  | storyCheck (d : Difficulty) (p : Persona) (storyText question answer : String)
  | pronunciationSentence (d : Difficulty)
  | speechAnalysis (d : Difficulty) (p : Persona) (prompt transcript : String)
  | chatMessage (d : Difficulty) (p : Persona) (message : String)
  | dictionarySearch (w : String)
  | vocabularyWords (d : Difficulty)
  | translationSentence (d : Difficulty)
  | translationCheck (d : Difficulty) (p : Persona) (sentence attempt : String)
  | writingFeedback (d : Difficulty) (p : Persona) (text : String)
  | phrasalVerbGen (d : Difficulty)
  | commonPhraseGen (d : Difficulty)
  | examCreate (d : Difficulty) (cfg : ExamSettings)
  | examGrade (d : Difficulty) (p : Persona) (qs : List ExamQuestion) (answers : List UserAnswer)
  | selectionTranslate (sel : String)
deriving DecidableEq, Repr

/-- The request each call site sends, prompt for prompt from
src/index.tsx (lines 212, 219, 231, 239, 264, 288, 297, 313, 321, 330,
349, 358, 367, 400, 457-461, 159). -/
def requestOf : ApiCall → ModelRequest
  | ApiCall.wordOfTheDay =>
      { model := "gemini-2.5-flash"
        contents := "Generate an interesting English word of the day appropriate for an intermediate learner."
        responseJson := true
        systemInstruction := none }
  | ApiCall.storyGenerate d =>
      { model := "gemini-2.5-flash"
        contents := "Generate a short story (3-4 paragraphs) and a comprehension question about it for an English learner at the " ++
          difficultyLevels d ++ " level."
        responseJson := true
        systemInstruction := none }
  | ApiCall.storyCheck d p storyText question answer =>
      { model := "gemini-2.5-flash"
        contents := "A " ++ difficultyLevels d ++ " English learner was told the story: \"" ++
          storyText ++ "\". They were asked: \"" ++ question ++ "\". Their answer was: \"" ++
          answer ++ "\". Provide feedback on their comprehension and grammar."
        responseJson := false
        systemInstruction := some (personaInstructions p) }
  | ApiCall.pronunciationSentence d =>
      { model := "gemini-2.5-flash"
        contents := "Give me a single, interesting sentence to practice my pronunciation. The sentence should be appropriate for a " ++
          difficultyLevels d ++ " level learner. Just provide the sentence, no extra text."
        responseJson := false
        systemInstruction := none }
  | ApiCall.speechAnalysis d p prompt transcript =>
      { model := "gemini-2.5-flash"
        contents := "A " ++ difficultyLevels d ++ " learner was asked to say: \"" ++ prompt ++
          "\". They said: \"" ++ transcript ++
          "\". Please analyze their response for grammatical accuracy, clarity, and relevance to the prompt. Ignore any potential pronunciation mistakes as you are only analyzing the text."
        responseJson := false
        systemInstruction := some (personaInstructions p) }
  | ApiCall.chatMessage d p message =>
      { model := (initializeChat d p).model
        contents := message
        responseJson := false
        systemInstruction := some (initializeChat d p).systemInstruction }
  | ApiCall.dictionarySearch w =>
      { model := "gemini-2.5-flash"
        contents := "Provide a dictionary entry for the word \"" ++ w ++ "\"."
        responseJson := true
        systemInstruction := none }
  | ApiCall.vocabularyWords d =>
      { model := "gemini-2.5-flash"
        contents := "Generate a list of 5 vocabulary words appropriate for a " ++
          difficultyLevels d ++ " English learner. For each word, provide a simple definition and an example sentence."
        responseJson := true
        systemInstruction := none }
  | ApiCall.translationSentence d =>
      { model := "gemini-2.5-flash"
        contents := "Provide a single, interesting English sentence to be translated into Spanish, appropriate for a " ++
          difficultyLevels d ++ " level learner. Just the sentence, no extra text."
        responseJson := false
        systemInstruction := none }
  | ApiCall.translationCheck d p sentence attempt =>
      { model := "gemini-2.5-flash"
        contents := "A " ++ difficultyLevels d ++ " learner was asked to translate \"" ++ sentence ++
          "\" into Spanish. Their translation was \"" ++ attempt ++
          "\". Provide feedback on the translation\x27s accuracy and grammar in simple English."
        responseJson := false
        systemInstruction := some (personaInstructions p) }
  | ApiCall.writingFeedback d p text =>
      { model := "gemini-2.5-flash"
        contents := "Analyze the following English text written by a " ++ difficultyLevels d ++
          " level learner. Provide structured feedback. \n\nText: \"" ++ text ++ "\""
        responseJson := true
        systemInstruction := some (personaInstructions p) }
  | ApiCall.phrasalVerbGen d =>
      { model := "gemini-2.5-flash"
        contents := "Provide one common English phrasal verb, its definition, and an example sentence. It should be suitable for a " ++
          difficultyLevels d ++ " learner."
        responseJson := true
        systemInstruction := none }
  | ApiCall.commonPhraseGen d =>
      { model := "gemini-2.5-flash"
        contents := "Provide one common English idiom or phrase, its meaning, and an example sentence. It should be suitable for a " ++
          difficultyLevels d ++ " learner."
        responseJson := true
        systemInstruction := none }
  | ApiCall.examCreate d cfg =>
      { model := "gemini-2.5-flash"
        contents := "Generate a " ++ examTypeLit cfg.type ++ " exam with " ++ toString cfg.questions ++
          " questions for an English learner at the " ++ difficultyLevels d ++
          " level. For MCQ questions, provide 4 options. For writing, speaking, and listening, just provide the prompt/question text. Ensure question IDs are sequential starting from 1."
        responseJson := true
        systemInstruction := none }
  | ApiCall.examGrade d p qs answers =>
      { model := "gemini-2.5-flash"
        contents := "An English learner at the " ++ difficultyLevels d ++
          " level has completed an exam. Here are the questions and their answers. Please grade the exam and provide an overall score (out of 100), a summary, and feedback for each question.\n    \n    Questions: " ++
          stringifyQuestions qs ++ "\n    User Answers: " ++ stringifyAnswers answers ++ "\n    "
        responseJson := true
        systemInstruction := some (personaInstructions p) }
  | ApiCall.selectionTranslate sel =>
      { model := "gemini-2.5-flash"
        contents := "Translate the following English text to Spanish: \"" ++ sel ++ "\""
        responseJson := false
        systemInstruction := none }

/-! ### The asynchronous model: requests in flight

The handlers that call the model API are async functions: between their
synchronous prefix and the arrival of the response, other event handlers
run. This finer model splits each request into a begin step and a
complete step and counts the requests in flight. It covers everything
that touches the isLoading flag or the exam fields: the two exam
requests (creation and grading), the content generators that changeView
triggers on navigation (src/index.tsx lines 181-188: generateStory,
generatePronunciationPrompt, generateVocabulary, generateTranslationTask,
generatePhrasalVerb, generateCommonPhrase all set isLoading and clear it
again when their own response arrives; initializeChat contains no await,
so it nets isLoading to false synchronously; the writingAnalysis case
only clears its own fields), the regeneration buttons of the vocabulary,
translation, phrasal-verb and phrase views, and the selection-translation
popup of lines 141-170 (whose mouseup handler consults no loading flag).
The requests gated by isSubmitting (story answer check, speech analysis,
chat messages, dictionary lookup, translation check, writing analysis)
and the word-of-the-day fetch touch neither isLoading nor any exam
field, so they are not counted; they could only add further overlaps. -/

structure PState where
  app : AppState
  pendingStart : Nat
  pendingGrade : Nat
  pendingPopup : Nat
  pendingActivity : Nat
deriving DecidableEq, Repr

/-- Events of the asynchronous model. changeViewA carries the navigation
together with the synchronous prefix of the generator it triggers;
completeActivityA delivers a generator response (ok = false is an API
failure, which sets the generic error, line 204); regenActivityA is a
regeneration button of the view it names. -/
inductive AEvent where
  | beginStartA
  | completeStartA (resp : Option (Option (List ExamQuestion)))
  | answerInputA (a : String)
  | nextQuestionA
  | completeGradeA (resp : Option (Option ExamResult))
  | takeAnotherA
  | changeViewA (v : View)
  | completeActivityA (ok : Bool)
  | regenActivityA (v : View)
  | beginPopupA
  | completePopupA
deriving DecidableEq, Repr

/-- One step of the asynchronous model. Guards are those of stepFn; the
begin steps perform the synchronous prefix of the handler and register a
request in flight, the complete steps deliver the response. Navigation to
story, pronunciation, vocabulary, translation, phrasalVerbs or phrases
starts that generator (isLoading true, one request pending); navigation
to conversation runs initializeChat to completion at once (no await in
its body), netting isLoading to false; other views leave the flag alone.
A generator completion sets isLoading back to false whatever else is
pending. The popup begin step has no state guard: the mouseup handler
fires on any text selection, src/index.tsx lines 141-156. -/
def astepFn (p : PState) (e : AEvent) : Option PState :=
  match e with
  | AEvent.beginStartA =>
      if p.app.activeView = View.exams ∧ p.app.examState = ExamState.setup ∧
          p.app.isLoading = false then
        some { p with app := startExamReset p.app, pendingStart := p.pendingStart + 1 }
      else none
  | AEvent.completeStartA resp =>
      if 0 < p.pendingStart then
        some { p with app := startExamComplete p.app resp, pendingStart := p.pendingStart - 1 }
      else none
  | AEvent.answerInputA a =>
      if p.app.activeView = View.exams ∧ p.app.examState = ExamState.inProgress ∧
          p.app.isLoading = false ∧ p.app.examQuestions ≠ [] then
        match p.app.examQuestions[p.app.currentQuestionIndex]? with
        | some q =>
            match q.type, q.options with
            | QuestionType.mcq, some os =>
                if a ∈ os then some { p with app := { p.app with currentAnswer := a } } else none
            | QuestionType.mcq, none => none
            | _, _ => some { p with app := { p.app with currentAnswer := a } }
        | none => none
      else none
  | AEvent.nextQuestionA =>
      if p.app.activeView = View.exams ∧ p.app.examState = ExamState.inProgress ∧
          p.app.isLoading = false ∧ p.app.examQuestions ≠ [] ∧ p.app.currentAnswer ≠ "" then
        match p.app.examQuestions[p.app.currentQuestionIndex]? with
        | none => some p
        | some q =>
            let s1 : AppState := { p.app with userAnswers := updatedAnswers p.app q }
            if p.app.currentQuestionIndex < p.app.examQuestions.length - 1 then
              some { p with app := advanceAfter s1 }
            else
              some { p with app := gradeBegin s1, pendingGrade := p.pendingGrade + 1 }
      else none
  | AEvent.completeGradeA resp =>
      if 0 < p.pendingGrade then
        some { p with app := gradeComplete p.app resp, pendingGrade := p.pendingGrade - 1 }
      else none
  | AEvent.takeAnotherA =>
      if p.app.activeView = View.exams ∧ p.app.examState = ExamState.results ∧
          p.app.isLoading = false ∧ p.app.examResults.isSome then
        some { p with app := { p.app with examState := ExamState.setup, examResults := none } }
      else none
  | AEvent.changeViewA v =>
      some (match v with
        | View.story =>
            { p with app := { changeView v p.app with isLoading := true }
                     pendingActivity := p.pendingActivity + 1 }
        | View.pronunciation =>
            { p with app := { changeView v p.app with isLoading := true }
                     pendingActivity := p.pendingActivity + 1 }
        | View.vocabulary =>
            { p with app := { changeView v p.app with isLoading := true }
                     pendingActivity := p.pendingActivity + 1 }
        | View.translation =>
            { p with app := { changeView v p.app with isLoading := true }
                     pendingActivity := p.pendingActivity + 1 }
        | View.phrasalVerbs =>
            { p with app := { changeView v p.app with isLoading := true }
                     pendingActivity := p.pendingActivity + 1 }
        | View.phrases =>
            { p with app := { changeView v p.app with isLoading := true }
                     pendingActivity := p.pendingActivity + 1 }
        | View.conversation =>
            { p with app := { changeView v p.app with isLoading := false } }
        | _ => { p with app := changeView v p.app })
  | AEvent.completeActivityA ok =>
      if 0 < p.pendingActivity then
        some { p with
          app := { p.app with
            isLoading := false
            error := if ok then p.app.error else "An error occurred. Please try again." }
          pendingActivity := p.pendingActivity - 1 }
      else none
  | AEvent.regenActivityA v =>
      if (v = View.vocabulary ∨ v = View.translation ∨ v = View.phrasalVerbs ∨ v = View.phrases) ∧
          p.app.activeView = v ∧ p.app.isLoading = false then
        some { p with app := { p.app with isLoading := true }
                      pendingActivity := p.pendingActivity + 1 }
      else none
  | AEvent.beginPopupA => some { p with pendingPopup := p.pendingPopup + 1 }
  | AEvent.completePopupA =>
      if 0 < p.pendingPopup then some { p with pendingPopup := p.pendingPopup - 1 }
      else none

/-- Some asynchronous event takes p to p1. -/
def astepRel (p p1 : PState) : Prop := ∃ e, astepFn p e = some p1

/-- The initial state of the asynchronous model: no request in flight. -/
def pInit : PState :=
  { app := initState, pendingStart := 0, pendingGrade := 0, pendingPopup := 0, pendingActivity := 0 }

/-- States reachable in the asynchronous model. -/
def AReaches (p : PState) : Prop := Relation.ReflTransGen astepRel pInit p

/-- The events available while interaction stays within the exam flow:
everything except navigation to another view, the generators such
navigation triggers, and their completions. -/
def examFlowEvent : AEvent → Prop
  | AEvent.changeViewA v => v = View.exams
  | AEvent.completeActivityA _ => False
  | AEvent.regenActivityA _ => False
  | _ => True

/-- One exam-flow step. -/
def examFlowRel (p p1 : PState) : Prop := ∃ e, examFlowEvent e ∧ astepFn p e = some p1

/-- States reachable while staying within the exam flow. -/
def ExamFlowReaches (p : PState) : Prop := Relation.ReflTransGen examFlowRel pInit p

/-- The total number of model requests in flight. -/
def totalPending (p : PState) : Nat :=
  p.pendingStart + p.pendingGrade + p.pendingPopup + p.pendingActivity

/-! ### Concrete states used by counterexamples and witnesses -/

/-- A sample multiple-choice question. -/
def sampleQ1 : ExamQuestion :=
  { id := 1, type := QuestionType.mcq, text := "Choose the synonym of happy."
    options := some ["glad", "angry", "tired", "cold"] }

/-- A second sample multiple-choice question. -/
def sampleQ2 : ExamQuestion :=
  { id := 2, type := QuestionType.mcq, text := "Choose the antonym of big."
    options := some ["small", "huge", "wide", "tall"] }

/-- A sample grading result as parsed from a model response. -/
def sampleResult : ExamResult :=
  { overallScore := 100
    summary := "Excellent work on both questions."
    feedback :=
      [ { questionId := 1, questionText := "Choose the synonym of happy."
          userAnswer := "glad", isCorrect := true, feedback := "Correct choice." }
      , { questionId := 2, questionText := "Choose the antonym of big."
          userAnswer := "small", isCorrect := true, feedback := "Correct choice." } ] }

/-- After navigating to the exams view. -/
def sExams : AppState := changeView View.exams initState

/-- After a successful startExam delivering two questions. -/
def sInProg : AppState :=
  startExamComplete (startExamReset sExams) (some (some [sampleQ1, sampleQ2]))

/-- After navigating home mid-exam. -/
def sLeft : AppState := changeView View.home sInProg

/-- After selecting the answer to the first question. -/
def sAns1 : AppState := { sInProg with currentAnswer := "glad" }

/-- After advancing past the first question. -/
def sOnQ2 : AppState := (handleNextQuestion sAns1 none).2

/-- After selecting the answer to the second question. -/
def sAns2 : AppState := { sOnQ2 with currentAnswer := "small" }

/-- The grading request of this run: both questions, both answers. -/
def sampleReq : GradeRequest :=
  { questions := [sampleQ1, sampleQ2]
    answers := [{ questionId := 1, answer := "glad" }, { questionId := 2, answer := "small" }] }

/-- After a successful grading of the run. -/
def sDone : AppState := (handleNextQuestion sAns2 (some (some sampleResult))).2

/-- After a failed grading of the run. -/
def sFailed : AppState := (handleNextQuestion sAns2 none).2

/-- The asynchronous state right after clicking Start Exam: one creation
request in flight. -/
def pStartPending : PState :=
  { app := startExamReset sExams
    pendingStart := 1, pendingGrade := 0, pendingPopup := 0, pendingActivity := 0 }

/-- An asynchronous state with an exam-creation request and a popup
translation request in flight at the same time. -/
def pOverlap : PState := { pStartPending with pendingPopup := 1 }

/-- After navigating to the conversation view while the creation request
is pending: initializeChat has run to completion and reset isLoading. -/
def pConvDetour : PState :=
  { pStartPending with
    app := { changeView View.conversation pStartPending.app with isLoading := false } }

/-- Back on the exams view, the first creation request still pending but
the loader cleared by the detour. -/
def pBackToExams : PState := { pConvDetour with app := changeView View.exams pConvDetour.app }

/-- After clicking Start Exam a second time: two exam-creation requests
in flight at once. -/
def pTwoStarts : PState :=
  { pBackToExams with app := startExamReset pBackToExams.app, pendingStart := 2 }

/-- The inductive invariant of the atomic model: every handler leaves the
loader cleared; an exam in progress with questions has its index in
range; the collected answers never repeat a questionId. -/
def Inv (s : AppState) : Prop :=
  s.isLoading = false ∧
  (s.examState = ExamState.inProgress →
    s.examQuestions = [] ∨ s.currentQuestionIndex < s.examQuestions.length) ∧
  (s.userAnswers.map UserAnswer.questionId).Nodup

/-- The inductive invariant of the exam-flow-restricted asynchronous
model: at most one exam request is in flight, and the isLoading flag
records exactly whether one is. Outside the restriction this is false of
the program: a generator completion (or the synchronous initializeChat)
resets isLoading while an exam request is still pending. -/
def loadInv (p : PState) : Prop :=
  p.pendingStart + p.pendingGrade ≤ 1 ∧
  (p.app.isLoading = true ↔ p.pendingStart + p.pendingGrade = 1)

/-! ### Helper lemmas -/

theorem step_changeView_inv {s : AppState} {v : View} {r : Option GradeRequest} {s' : AppState}
    (h : step s (Event.changeViewEv v) r s') : r = none ∧ s' = changeView v s := by
  simp only [step, stepFn, Option.some.injEq, Prod.mk.injEq] at h
  exact ⟨h.1.symm, h.2.symm⟩

theorem step_setType_inv {s : AppState} {t : ExamType} {r : Option GradeRequest} {s' : AppState}
    (h : step s (Event.setExamType t) r s') :
    s.activeView = View.exams ∧ s.examState = ExamState.setup ∧ s.isLoading = false ∧
    r = none ∧ s' = { s with examSettings := { s.examSettings with type := t } } := by
  simp only [step, stepFn] at h
  split at h
  · rename_i hg
    simp only [Option.some.injEq, Prod.mk.injEq] at h
    exact ⟨hg.1, hg.2.1, hg.2.2, h.1.symm, h.2.symm⟩
  · exact absurd h (by simp)

theorem step_setQuestions_inv {s : AppState} {n : Nat} {r : Option GradeRequest} {s' : AppState}
    (h : step s (Event.setExamQuestions n) r s') :
    s.activeView = View.exams ∧ s.examState = ExamState.setup ∧ s.isLoading = false ∧
    r = none ∧ s' = { s with examSettings := { s.examSettings with questions := n } } := by
  simp only [step, stepFn] at h
  split at h
  · rename_i hg
    simp only [Option.some.injEq, Prod.mk.injEq] at h
    exact ⟨hg.2.1, hg.2.2.1, hg.2.2.2, h.1.symm, h.2.symm⟩
  · exact absurd h (by simp)

theorem step_start_inv {s : AppState} {resp : Option (Option (List ExamQuestion))}
    {r : Option GradeRequest} {s' : AppState}
    (h : step s (Event.startExamEv resp) r s') :
    s.activeView = View.exams ∧ s.examState = ExamState.setup ∧ s.isLoading = false ∧
    r = none ∧ s' = startExamComplete (startExamReset s) resp := by
  simp only [step, stepFn] at h
  split at h
  · rename_i hg
    simp only [Option.some.injEq, Prod.mk.injEq] at h
    exact ⟨hg.1, hg.2.1, hg.2.2, h.1.symm, h.2.symm⟩
  · exact absurd h (by simp)

theorem step_answer_inv {s : AppState} {a : String} {r : Option GradeRequest} {s' : AppState}
    (h : step s (Event.answerInputEv a) r s') :
    s.examState = ExamState.inProgress ∧ r = none ∧ s' = { s with currentAnswer := a } := by
  simp only [step, stepFn] at h
  split at h
  · rename_i hg
    refine ⟨hg.2.1, ?_⟩
    split at h
    · split at h
      · split at h
        · simp only [Option.some.injEq, Prod.mk.injEq] at h
          exact ⟨h.1.symm, h.2.symm⟩
        · exact absurd h (by simp)
      · exact absurd h (by simp)
      · simp only [Option.some.injEq, Prod.mk.injEq] at h
        exact ⟨h.1.symm, h.2.symm⟩
    · exact absurd h (by simp)
  · exact absurd h (by simp)

theorem step_next_inv {s : AppState} {g : Option (Option ExamResult)}
    {r : Option GradeRequest} {s' : AppState}
    (h : step s (Event.nextQuestionEv g) r s') :
    s.activeView = View.exams ∧ s.examState = ExamState.inProgress ∧ s.isLoading = false ∧
    s.examQuestions ≠ [] ∧ s.currentAnswer ≠ "" ∧ (r, s') = handleNextQuestion s g := by
  simp only [step, stepFn] at h
  split at h
  · rename_i hg
    simp only [Option.some.injEq] at h
    exact ⟨hg.1, hg.2.1, hg.2.2.1, hg.2.2.2.1, hg.2.2.2.2, h.symm⟩
  · exact absurd h (by simp)

theorem step_takeAnother_inv {s : AppState} {r : Option GradeRequest} {s' : AppState}
    (h : step s Event.takeAnotherEv r s') :
    s.activeView = View.exams ∧ s.examState = ExamState.results ∧ s.isLoading = false ∧
    s.examResults.isSome ∧
    r = none ∧ s' = { s with examState := ExamState.setup, examResults := none } := by
  simp only [step, stepFn] at h
  split at h
  · rename_i hg
    simp only [Option.some.injEq, Prod.mk.injEq] at h
    exact ⟨hg.1, hg.2.1, hg.2.2.1, hg.2.2.2, h.1.symm, h.2.symm⟩
  · exact absurd h (by simp)

theorem handleNextQuestion_noQuestion {s : AppState} {g : Option (Option ExamResult)}
    (hq : s.examQuestions[s.currentQuestionIndex]? = none) :
    handleNextQuestion s g = (none, s) := by
  simp [handleNextQuestion, hq]

theorem handleNextQuestion_advance {s : AppState} {g : Option (Option ExamResult)}
    {q : ExamQuestion} (hq : s.examQuestions[s.currentQuestionIndex]? = some q)
    (hlt : s.currentQuestionIndex < s.examQuestions.length - 1) :
    handleNextQuestion s g = (none, advanceAfter { s with userAnswers := updatedAnswers s q }) := by
  simp [handleNextQuestion, hq, hlt]

theorem handleNextQuestion_grade {s : AppState} {g : Option (Option ExamResult)}
    {q : ExamQuestion} (hq : s.examQuestions[s.currentQuestionIndex]? = some q)
    (hlt : ¬ s.currentQuestionIndex < s.examQuestions.length - 1) :
    handleNextQuestion s g =
      (some { questions := s.examQuestions, answers := updatedAnswers s q },
        gradeComplete (gradeBegin { s with userAnswers := updatedAnswers s q }) g) := by
  simp [handleNextQuestion, hq, hlt]

theorem nodup_updatedAnswers {s : AppState} (q : ExamQuestion)
    (h : (s.userAnswers.map UserAnswer.questionId).Nodup) :
    ((updatedAnswers s q).map UserAnswer.questionId).Nodup := by
  unfold updatedAnswers
  rw [List.map_append]
  refine List.Nodup.append ?_ (by simp) ?_
  · exact ((List.filter_sublist s.userAnswers).map UserAnswer.questionId).nodup h
  · intro x hx hy
    simp only [List.map_cons, List.map_nil, List.mem_singleton] at hy
    rcases List.mem_map.mp hx with ⟨a, ha, rfl⟩
    have hne := (List.mem_filter.mp ha).2
    rw [bne_iff_ne] at hne
    exact hne hy

theorem find?_updatedAnswers {s : AppState} (q : ExamQuestion) :
    (updatedAnswers s q).find? (fun a => a.questionId == q.id) =
      some { questionId := q.id, answer := s.currentAnswer } := by
  unfold updatedAnswers
  rw [List.find?_append]
  have h1 : (s.userAnswers.filter fun a => a.questionId != q.id).find?
      (fun a => a.questionId == q.id) = none := by
    rw [List.find?_eq_none]
    intro a ha
    have hne := (List.mem_filter.mp ha).2
    rw [bne_iff_ne] at hne
    simp [hne]
  simp [h1, List.find?]

theorem mem_updatedAnswers {s : AppState} {q : ExamQuestion} {a : UserAnswer}
    (ha : a ∈ s.userAnswers) (hne : a.questionId ≠ q.id) : a ∈ updatedAnswers s q := by
  unfold updatedAnswers
  refine List.mem_append.mpr (Or.inl ?_)
  exact List.mem_filter.mpr ⟨ha, by simp [bne_iff_ne, hne]⟩

theorem mem_of_mem_updatedAnswers {s : AppState} {q : ExamQuestion} {a : UserAnswer}
    (ha : a ∈ updatedAnswers s q) :
    a ∈ s.userAnswers ∨ a = { questionId := q.id, answer := s.currentAnswer } := by
  unfold updatedAnswers at ha
  rcases List.mem_append.mp ha with h | h
  · exact Or.inl (List.mem_filter.mp h).1
  · exact Or.inr (List.mem_singleton.mp h)

theorem step_inv {s : AppState} {e : Event} {r : Option GradeRequest} {s' : AppState}
    (hs : Inv s) (h : step s e r s') : Inv s' := by
  obtain ⟨hL, hIdx, hN⟩ := hs
  cases e with
  | changeViewEv v =>
      obtain ⟨-, rfl⟩ := step_changeView_inv h
      refine ⟨hL, ?_, hN⟩
      intro hip
      by_cases hv : v = View.exams
      · simp only [changeView, hv, if_pos] at hip ⊢
        exact hIdx hip
      · simp [changeView, hv] at hip
  | setExamType t =>
      obtain ⟨-, hSt, -, -, rfl⟩ := step_setType_inv h
      exact ⟨hL, by simp [hSt], hN⟩
  | setExamQuestions n =>
      obtain ⟨-, hSt, -, -, rfl⟩ := step_setQuestions_inv h
      exact ⟨hL, by simp [hSt], hN⟩
  | startExamEv resp =>
      obtain ⟨-, hSt, -, -, rfl⟩ := step_start_inv h
      cases resp with
      | none => exact ⟨rfl, by simp [startExamComplete, startExamReset, hSt], by simp [startExamComplete, startExamReset]⟩
      | some o =>
          cases o with
          | none => exact ⟨rfl, by simp [startExamComplete, startExamReset, hSt], by simp [startExamComplete, startExamReset]⟩
          | some qs =>
              refine ⟨rfl, ?_, by simp [startExamComplete, startExamReset]⟩
              intro _
              simp only [startExamComplete, startExamReset]
              cases qs with
              | nil => exact Or.inl rfl
              | cons x xs => exact Or.inr (by simp)
  | answerInputEv a =>
      obtain ⟨hSt, -, rfl⟩ := step_answer_inv h
      exact ⟨hL, fun hip => hIdx hip, hN⟩
  | nextQuestionEv g =>
      obtain ⟨-, hSt, -, hne, -, hpair⟩ := step_next_inv h
      rcases hq : s.examQuestions[s.currentQuestionIndex]? with - | q
      · rw [handleNextQuestion_noQuestion hq] at hpair
        obtain ⟨-, rfl⟩ := Prod.mk.inj hpair
        exact ⟨hL, hIdx, hN⟩
      · by_cases hlt : s.currentQuestionIndex < s.examQuestions.length - 1
        · rw [handleNextQuestion_advance hq hlt] at hpair
          obtain ⟨-, rfl⟩ := Prod.mk.inj hpair
          refine ⟨hL, ?_, ?_⟩
          · intro _
            refine Or.inr ?_
            simp only [advanceAfter]
            omega
          · simpa [advanceAfter] using nodup_updatedAnswers q hN
        · rw [handleNextQuestion_grade hq hlt] at hpair
          obtain ⟨-, rfl⟩ := Prod.mk.inj hpair
          rcases g with - | go
          · exact ⟨rfl, by simp [gradeComplete, gradeBegin], by simpa [gradeComplete, gradeBegin] using nodup_updatedAnswers q hN⟩
          · rcases go with - | gr
            · exact ⟨rfl, by simp [gradeComplete, gradeBegin], by simpa [gradeComplete, gradeBegin] using nodup_updatedAnswers q hN⟩
            · exact ⟨rfl, by simp [gradeComplete, gradeBegin], by simpa [gradeComplete, gradeBegin] using nodup_updatedAnswers q hN⟩
  | takeAnotherEv =>
      obtain ⟨-, -, -, -, -, rfl⟩ := step_takeAnother_inv h
      exact ⟨hL, by simp, hN⟩

theorem reaches_inv {s : AppState} (h : Reaches s) : Inv s := by
  induction h with
  | refl => exact ⟨rfl, by intro hip; exact Or.inl rfl, by simp [initState]⟩
  | tail hab hbc ih =>
      obtain ⟨e, r, hstep⟩ := hbc
      exact step_inv ih hstep

theorem reaches_sInProg : Reaches sInProg := by
  have h1 : stepRel initState sExams := ⟨Event.changeViewEv View.exams, none, by decide⟩
  have h2 : stepRel sExams sInProg :=
    ⟨Event.startExamEv (some (some [sampleQ1, sampleQ2])), none, by decide⟩
  exact Relation.ReflTransGen.tail (Relation.ReflTransGen.tail Relation.ReflTransGen.refl h1) h2

theorem reaches_sAns2 : Reaches sAns2 := by
  have h3 : stepRel sInProg sAns1 := ⟨Event.answerInputEv "glad", none, by decide⟩
  have h4 : stepRel sAns1 sOnQ2 := ⟨Event.nextQuestionEv none, none, by decide⟩
  have h5 : stepRel sOnQ2 sAns2 := ⟨Event.answerInputEv "small", none, by decide⟩
  exact Relation.ReflTransGen.tail
    (Relation.ReflTransGen.tail (Relation.ReflTransGen.tail reaches_sInProg h3) h4) h5

theorem examFlow_loadInv {p p' : PState} {e : AEvent} (hp : loadInv p) (hE : examFlowEvent e)
    (h : astepFn p e = some p') : loadInv p' := by
  obtain ⟨hle, hiff⟩ := hp
  cases e with
  | beginStartA =>
      simp only [astepFn] at h
      split at h
      · rename_i hg
        obtain rfl := Option.some.inj h
        have hld : p.app.isLoading = false := hg.2.2
        have hne : p.pendingStart + p.pendingGrade ≠ 1 := by
          intro hh; rw [hiff.mpr hh] at hld; cases hld
        constructor
        · show p.pendingStart + 1 + p.pendingGrade ≤ 1
          omega
        · show (startExamReset p.app).isLoading = true ↔ p.pendingStart + 1 + p.pendingGrade = 1
          simp only [startExamReset, true_iff]
          omega
      · cases h
  | completeStartA resp =>
      simp only [astepFn] at h
      split at h
      · rename_i hg
        obtain rfl := Option.some.inj h
        have h1 : p.pendingStart + p.pendingGrade = 1 := by omega
        constructor
        · show p.pendingStart - 1 + p.pendingGrade ≤ 1
          omega
        · show (startExamComplete p.app resp).isLoading = true ↔ p.pendingStart - 1 + p.pendingGrade = 1
          have hF : (startExamComplete p.app resp).isLoading = false := by
            rcases resp with - | o
            · rfl
            · rcases o with - | qs <;> rfl
          rw [hF]
          simp only [Bool.false_eq_true, false_iff]
          omega
      · cases h
  | answerInputA a =>
      simp only [astepFn] at h
      split at h
      · split at h
        · split at h
          · split at h
            · obtain rfl := Option.some.inj h
              exact ⟨hle, hiff⟩
            · cases h
          · cases h
          · obtain rfl := Option.some.inj h
            exact ⟨hle, hiff⟩
        · cases h
      · cases h
  | nextQuestionA =>
      simp only [astepFn] at h
      split at h
      · rename_i hg
        have hld : p.app.isLoading = false := hg.2.2.1
        have hne : p.pendingStart + p.pendingGrade ≠ 1 := by
          intro hh; rw [hiff.mpr hh] at hld; cases hld
        split at h
        · obtain rfl := Option.some.inj h
          exact ⟨hle, hiff⟩
        · split at h
          · obtain rfl := Option.some.inj h
            exact ⟨hle, hiff⟩
          · obtain rfl := Option.some.inj h
            constructor
            · show p.pendingStart + (p.pendingGrade + 1) ≤ 1
              omega
            · rename_i q hq hlt
              show (gradeBegin { p.app with userAnswers := updatedAnswers p.app q }).isLoading = true ↔
                p.pendingStart + (p.pendingGrade + 1) = 1
              simp only [gradeBegin, true_iff]
              omega
      · cases h
  | completeGradeA resp =>
      simp only [astepFn] at h
      split at h
      · rename_i hg
        obtain rfl := Option.some.inj h
        have h1 : p.pendingStart + p.pendingGrade = 1 := by omega
        constructor
        · show p.pendingStart + (p.pendingGrade - 1) ≤ 1
          omega
        · show (gradeComplete p.app resp).isLoading = true ↔ p.pendingStart + (p.pendingGrade - 1) = 1
          have hF : (gradeComplete p.app resp).isLoading = false := by
            rcases resp with - | o
            · rfl
            · rcases o with - | gr <;> rfl
          rw [hF]
          simp only [Bool.false_eq_true, false_iff]
          omega
      · cases h
  | takeAnotherA =>
      simp only [astepFn] at h
      split at h
      · obtain rfl := Option.some.inj h
        exact ⟨hle, hiff⟩
      · cases h
  | changeViewA v =>
      have hv : v = View.exams := hE
      subst hv
      simp only [astepFn] at h
      obtain rfl := Option.some.inj h
      exact ⟨hle, hiff⟩
  | completeActivityA ok => exact hE.elim
  | regenActivityA v => exact hE.elim
  | beginPopupA =>
      simp only [astepFn] at h
      obtain rfl := Option.some.inj h
      exact ⟨hle, hiff⟩
  | completePopupA =>
      simp only [astepFn] at h
      split at h
      · obtain rfl := Option.some.inj h
        exact ⟨hle, hiff⟩
      · cases h

theorem examFlowReaches_loadInv {p : PState} (h : ExamFlowReaches p) : loadInv p := by
  induction h with
  | refl => exact ⟨by decide, by decide⟩
  | tail hab hbc ih =>
      obtain ⟨e, hE, hstep⟩ := hbc
      exact examFlow_loadInv ih hE hstep

theorem astep_totalPending {p p' : PState} {e : AEvent} (h : astepFn p e = some p') :
    totalPending p' ≤ totalPending p + 1 := by
  cases e with
  | beginStartA =>
      simp only [astepFn] at h
      split at h
      · obtain rfl := Option.some.inj h
        dsimp only [totalPending]
        omega
      · cases h
  | completeStartA resp =>
      simp only [astepFn] at h
      split at h
      · obtain rfl := Option.some.inj h
        dsimp only [totalPending]
        omega
      · cases h
  | answerInputA a =>
      simp only [astepFn] at h
      split at h
      · split at h
        · split at h
          · split at h
            · obtain rfl := Option.some.inj h
              dsimp only [totalPending]
              omega
            · cases h
          · cases h
          · obtain rfl := Option.some.inj h
            dsimp only [totalPending]
            omega
        · cases h
      · cases h
  | nextQuestionA =>
      simp only [astepFn] at h
      split at h
      · split at h
        · obtain rfl := Option.some.inj h
          dsimp only [totalPending]
          omega
        · split at h
          · obtain rfl := Option.some.inj h
            dsimp only [totalPending]
            omega
          · obtain rfl := Option.some.inj h
            dsimp only [totalPending]
            omega
      · cases h
  | completeGradeA resp =>
      simp only [astepFn] at h
      split at h
      · obtain rfl := Option.some.inj h
        dsimp only [totalPending]
        omega
      · cases h
  | takeAnotherA =>
      simp only [astepFn] at h
      split at h
      · obtain rfl := Option.some.inj h
        dsimp only [totalPending]
        omega
      · cases h
  | changeViewA v =>
      simp only [astepFn] at h
      obtain rfl := Option.some.inj h
      cases v <;> (dsimp only [totalPending]; omega)
  | completeActivityA ok =>
      simp only [astepFn] at h
      split at h
      · obtain rfl := Option.some.inj h
        dsimp only [totalPending]
        omega
      · cases h
  | regenActivityA v =>
      simp only [astepFn] at h
      split at h
      · obtain rfl := Option.some.inj h
        dsimp only [totalPending]
        omega
      · cases h
  | beginPopupA =>
      simp only [astepFn] at h
      obtain rfl := Option.some.inj h
      dsimp only [totalPending]
      omega
  | completePopupA =>
      simp only [astepFn] at h
      split at h
      · obtain rfl := Option.some.inj h
        dsimp only [totalPending]
        omega
      · cases h

theorem areaches_pOverlap : AReaches pOverlap := by
  have h1 : astepRel pInit { pInit with app := sExams } :=
    ⟨AEvent.changeViewA View.exams, by decide⟩
  have h2 : astepRel { pInit with app := sExams } pStartPending := ⟨AEvent.beginStartA, by decide⟩
  have h3 : astepRel pStartPending pOverlap := ⟨AEvent.beginPopupA, by decide⟩
  exact Relation.ReflTransGen.tail
    (Relation.ReflTransGen.tail (Relation.ReflTransGen.tail Relation.ReflTransGen.refl h1) h2) h3

theorem examFlowReaches_pOverlap : ExamFlowReaches pOverlap := by
  have h1 : examFlowRel pInit { pInit with app := sExams } :=
    ⟨AEvent.changeViewA View.exams, rfl, by decide⟩
  have h2 : examFlowRel { pInit with app := sExams } pStartPending :=
    ⟨AEvent.beginStartA, trivial, by decide⟩
  have h3 : examFlowRel pStartPending pOverlap := ⟨AEvent.beginPopupA, trivial, by decide⟩
  exact Relation.ReflTransGen.tail
    (Relation.ReflTransGen.tail (Relation.ReflTransGen.tail Relation.ReflTransGen.refl h1) h2) h3

theorem areaches_pTwoStarts : AReaches pTwoStarts := by
  have h1 : astepRel pInit { pInit with app := sExams } :=
    ⟨AEvent.changeViewA View.exams, by decide⟩
  have h2 : astepRel { pInit with app := sExams } pStartPending := ⟨AEvent.beginStartA, by decide⟩
  have h3 : astepRel pStartPending pConvDetour := ⟨AEvent.changeViewA View.conversation, by decide⟩
  have h4 : astepRel pConvDetour pBackToExams := ⟨AEvent.changeViewA View.exams, by decide⟩
  have h5 : astepRel pBackToExams pTwoStarts := ⟨AEvent.beginStartA, by decide⟩
  exact Relation.ReflTransGen.tail (Relation.ReflTransGen.tail (Relation.ReflTransGen.tail
    (Relation.ReflTransGen.tail (Relation.ReflTransGen.tail Relation.ReflTransGen.refl h1) h2)
      h3) h4) h5

/-! ### The claims -/

/-- Claim C2: grading is batched. A grading request is emitted only by
handleNextQuestion on the last question; it carries all exam questions
and the complete updated answer list, including the answer to the final
question; the step leaves in-progress, and in-progress can only be
re-entered by a successful startExam, which empties the answers, so each
run grades at most once. -/
theorem C2_batch_grading :
    ∀ (s : AppState) (e : Event) (r : Option GradeRequest) (s' : AppState), step s e r s' →
      (∀ req, r = some req →
        ∃ g q, e = Event.nextQuestionEv g ∧
          s.examState = ExamState.inProgress ∧
          s.examQuestions[s.currentQuestionIndex]? = some q ∧
          s.currentQuestionIndex = s.examQuestions.length - 1 ∧
          req.questions = s.examQuestions ∧
          req.answers = updatedAnswers s q ∧
          req.answers.find? (fun a => a.questionId == q.id) =
            some { questionId := q.id, answer := s.currentAnswer } ∧
          (∀ a ∈ s.userAnswers, a.questionId ≠ q.id → a ∈ req.answers) ∧
          s'.examState ≠ ExamState.inProgress) ∧
      ((s.examState ≠ ExamState.inProgress ∧ s'.examState = ExamState.inProgress) →
        r = none ∧ s'.userAnswers = [] ∧ ∃ qs, e = Event.startExamEv (some (some qs))) := by
  intro s e r s' h
  cases e with
  | changeViewEv v =>
      obtain ⟨rfl, rfl⟩ := step_changeView_inv h
      constructor
      · intro req hreq
        cases hreq
      · rintro ⟨h1, h2⟩
        by_cases hv : v = View.exams
        · have hEq : (changeView v s).examState = s.examState := by simp [changeView, hv]
          rw [hEq] at h2
          exact absurd h2 h1
        · have hEq : (changeView v s).examState = ExamState.setup := by simp [changeView, hv]
          rw [hEq] at h2
          cases h2
  | setExamType t =>
      obtain ⟨-, hSt, -, rfl, rfl⟩ := step_setType_inv h
      constructor
      · intro req hreq
        cases hreq
      · rintro ⟨-, h2⟩
        have h2' : s.examState = ExamState.inProgress := h2
        rw [hSt] at h2'
        cases h2'
  | setExamQuestions n =>
      obtain ⟨-, hSt, -, rfl, rfl⟩ := step_setQuestions_inv h
      constructor
      · intro req hreq
        cases hreq
      · rintro ⟨-, h2⟩
        have h2' : s.examState = ExamState.inProgress := h2
        rw [hSt] at h2'
        cases h2'
  | startExamEv resp =>
      obtain ⟨-, hSt, -, rfl, rfl⟩ := step_start_inv h
      constructor
      · intro req hreq
        cases hreq
      · rintro ⟨h1, h2⟩
        rcases resp with - | o
        · have h2' : s.examState = ExamState.inProgress := h2
          rw [hSt] at h2'
          cases h2'
        · rcases o with - | qs
          · have h2' : s.examState = ExamState.inProgress := h2
            rw [hSt] at h2'
            cases h2'
          · exact ⟨rfl, rfl, qs, rfl⟩
  | answerInputEv a =>
      obtain ⟨hSt, rfl, rfl⟩ := step_answer_inv h
      constructor
      · intro req hreq
        cases hreq
      · rintro ⟨h1, -⟩
        exact absurd hSt h1
  | nextQuestionEv g =>
      obtain ⟨-, hSt, -, -, -, hpair⟩ := step_next_inv h
      constructor
      · intro req hreq
        rcases hq : s.examQuestions[s.currentQuestionIndex]? with - | q
        · rw [handleNextQuestion_noQuestion hq] at hpair
          obtain ⟨h1, -⟩ := Prod.mk.inj hpair
          rw [hreq] at h1
          cases h1
        · by_cases hlt : s.currentQuestionIndex < s.examQuestions.length - 1
          · rw [handleNextQuestion_advance hq hlt] at hpair
            obtain ⟨h1, -⟩ := Prod.mk.inj hpair
            rw [hreq] at h1
            cases h1
          · rw [handleNextQuestion_grade hq hlt] at hpair
            obtain ⟨h1, rfl⟩ := Prod.mk.inj hpair
            rw [hreq] at h1
            obtain rfl : req = { questions := s.examQuestions, answers := updatedAnswers s q } :=
              Option.some.inj h1
            have hlen : s.currentQuestionIndex < s.examQuestions.length := by
              obtain ⟨hb, -⟩ := List.getElem?_eq_some.mp hq
              exact hb
            refine ⟨g, q, rfl, hSt, rfl, by omega, rfl, rfl, find?_updatedAnswers q,
              fun a ha hne2 => mem_updatedAnswers ha hne2, ?_⟩
            rcases g with - | go
            · intro hc
              have hc' : ExamState.setup = ExamState.inProgress := hc
              cases hc'
            · rcases go with - | res
              · intro hc
                have hc' : ExamState.setup = ExamState.inProgress := hc
                cases hc'
              · intro hc
                have hc' : ExamState.results = ExamState.inProgress := hc
                cases hc'
      · rintro ⟨h1, -⟩
        exact absurd hSt h1
  | takeAnotherEv =>
      obtain ⟨-, hSt, -, -, rfl, rfl⟩ := step_takeAnother_inv h
      constructor
      · intro req hreq
        cases hreq
      · rintro ⟨-, h2⟩
        have h2' : ExamState.setup = ExamState.inProgress := h2
        cases h2'

/-- Witness for C2: the concrete final-question step emits the request
holding both answers and leaves in-progress. -/
theorem C2_batch_grading_witness :
    step sAns2 (Event.nextQuestionEv (some (some sampleResult))) (some sampleReq) sDone ∧
    sDone.examState ≠ ExamState.inProgress := by
  refine ⟨by decide, ?_⟩
  obtain ⟨g, q, -, -, -, -, -, -, -, -, hlast⟩ :=
    (C2_batch_grading sAns2 (Event.nextQuestionEv (some (some sampleResult))) (some sampleReq)
      sDone (by decide)).1 sampleReq rfl
  exact hlast

/-- Claim C3: question delivery is sequential. In every reachable
in-progress state with a non-empty question list the index is in range
(hence at most length - 1) and the rendered screen shows exactly the
question at the current index; a step never decreases the index while the
exam stays in progress, and handleNextQuestion on a non-final question
advances it by exactly one without emitting a grading request. -/
theorem C3_sequential_delivery :
    ∀ s : AppState, Reaches s → s.examState = ExamState.inProgress → s.examQuestions ≠ [] →
      s.currentQuestionIndex < s.examQuestions.length ∧
      s.currentQuestionIndex ≤ s.examQuestions.length - 1 ∧
      (∃ q, s.examQuestions[s.currentQuestionIndex]? = some q ∧
        renderExams s = ExamView.questionView (s.currentQuestionIndex + 1)
          s.examQuestions.length (some q) s.currentAnswer
          (if s.currentQuestionIndex < s.examQuestions.length - 1 then "Next Question"
           else "Finish & Grade Exam")) ∧
      (∀ e r s', step s e r s' →
        (s'.examState = ExamState.inProgress → s.currentQuestionIndex ≤ s'.currentQuestionIndex) ∧
        (∀ g, e = Event.nextQuestionEv g → s.currentQuestionIndex < s.examQuestions.length - 1 →
          r = none ∧ s'.currentQuestionIndex = s.currentQuestionIndex + 1)) := by
  intro s hr hSt hne
  obtain ⟨hL, hIdx, -⟩ := reaches_inv hr
  have hlen : s.currentQuestionIndex < s.examQuestions.length := by
    rcases hIdx hSt with h | h
    · exact absurd h hne
    · exact h
  refine ⟨hlen, by omega, ?_, ?_⟩
  · have h1 : ¬(s.isLoading = true ∧ s.examState ≠ ExamState.results) := by
      rintro ⟨hl, -⟩
      rw [hL] at hl
      cases hl
    have h2 : ¬ s.examState = ExamState.results := by
      rw [hSt]
      intro hh
      cases hh
    refine ⟨s.examQuestions[s.currentQuestionIndex], List.getElem?_eq_getElem hlen, ?_⟩
    simp only [renderExams, if_neg h1, if_neg h2, if_pos hSt, if_neg hne]
    rw [List.getElem?_eq_getElem hlen]
  · intro e r s' hstep
    constructor
    · intro hip'
      cases e with
      | changeViewEv v =>
          obtain ⟨-, rfl⟩ := step_changeView_inv hstep
          exact le_refl _
      | setExamType t =>
          obtain ⟨-, -, -, -, rfl⟩ := step_setType_inv hstep
          exact le_refl _
      | setExamQuestions n =>
          obtain ⟨-, -, -, -, rfl⟩ := step_setQuestions_inv hstep
          exact le_refl _
      | startExamEv resp =>
          obtain ⟨-, hSt', -, -, rfl⟩ := step_start_inv hstep
          rw [hSt] at hSt'
          cases hSt'
      | answerInputEv a =>
          obtain ⟨-, -, rfl⟩ := step_answer_inv hstep
          exact le_refl _
      | nextQuestionEv g =>
          obtain ⟨-, -, -, -, -, hpair⟩ := step_next_inv hstep
          rcases hq : s.examQuestions[s.currentQuestionIndex]? with - | q
          · rw [handleNextQuestion_noQuestion hq] at hpair
            obtain ⟨-, rfl⟩ := Prod.mk.inj hpair
            exact le_refl _
          · by_cases hlt : s.currentQuestionIndex < s.examQuestions.length - 1
            · rw [handleNextQuestion_advance hq hlt] at hpair
              obtain ⟨-, rfl⟩ := Prod.mk.inj hpair
              exact Nat.le_succ _
            · rw [handleNextQuestion_grade hq hlt] at hpair
              obtain ⟨-, rfl⟩ := Prod.mk.inj hpair
              rcases g with - | go
              · have hc : ExamState.setup = ExamState.inProgress := hip'
                cases hc
              · rcases go with - | res
                · have hc : ExamState.setup = ExamState.inProgress := hip'
                  cases hc
                · have hc : ExamState.results = ExamState.inProgress := hip'
                  cases hc
      | takeAnotherEv =>
          obtain ⟨-, hSt', -, -, -, rfl⟩ := step_takeAnother_inv hstep
          simp [hSt] at hSt'
    · rintro g rfl hlt
      obtain ⟨-, -, -, -, -, hpair⟩ := step_next_inv hstep
      rw [handleNextQuestion_advance (List.getElem?_eq_getElem hlen) hlt] at hpair
      obtain ⟨rfl, rfl⟩ := Prod.mk.inj hpair
      exact ⟨rfl, rfl⟩

/-- Witness for C3: the concrete in-progress state has its index in
range. -/
theorem C3_sequential_delivery_witness :
    sInProg.currentQuestionIndex < sInProg.examQuestions.length ∧
    sInProg.currentQuestionIndex ≤ sInProg.examQuestions.length - 1 := by
  have h := C3_sequential_delivery sInProg reaches_sInProg (by decide) (by decide)
  exact ⟨h.1, h.2.1⟩

/-- Claim C5 counterexample: the claim says exam runs are timed, with a
time limit tracked as part of the exam state and enforced during
question delivery or at grading. The component state embedded from
src/index.tsx lines 80-117 holds no temporal field, and this complete
concrete run finishes with a grading request that consists solely of the
questions and the collected answers: the exam run is configured only by
type and question count and completes with no clock consulted anywhere. -/
theorem C5_counterexample :
    Reaches sAns2 ∧
    sAns2.examSettings = { type := ExamType.comprehensive, questions := 5 } ∧
    step sAns2 (Event.nextQuestionEv (some (some sampleResult))) (some sampleReq) sDone ∧
    sampleReq = { questions := [sampleQ1, sampleQ2]
                  answers := [{ questionId := 1, answer := "glad" },
                              { questionId := 2, answer := "small" }] } ∧
    sDone.examState = ExamState.results ∧
    renderExams sDone = ExamView.resultsView 100 "Excellent work on both questions."
      sampleResult.feedback :=
  ⟨reaches_sAns2, by decide, by decide, by decide, by decide, by decide⟩

/-- Claim C5 (amended): exams are not timed. Question delivery is enabled
exactly when the exams view shows an in-progress exam with questions, no
loader, and a non-empty current answer, and exam creation exactly when
the setup screen shows with no loader: enabledness depends on nothing but
these state fields, and no time limit exists or is enforced. -/
theorem C5_untimed_exams :
    ∀ (s : AppState) (g : Option (Option ExamResult)) (resp : Option (Option (List ExamQuestion))),
      ((stepFn s (Event.nextQuestionEv g)).isSome ↔
        (s.activeView = View.exams ∧ s.examState = ExamState.inProgress ∧
         s.isLoading = false ∧ s.examQuestions ≠ [] ∧ s.currentAnswer ≠ "")) ∧
      ((stepFn s (Event.startExamEv resp)).isSome ↔
        (s.activeView = View.exams ∧ s.examState = ExamState.setup ∧ s.isLoading = false)) := by
  intro s g resp
  constructor
  · simp only [stepFn]
    split
    · rename_i hg
      simp [hg]
    · rename_i hg
      simp [hg]
  · simp only [stepFn]
    split
    · rename_i hg
      simp [hg]
    · rename_i hg
      simp [hg]

/-- Claim C9: after every handleNextQuestion step from a reachable state
the answer list has at most one entry per questionId; the entry for the
current question is exactly the current answer (old entries for the same
id are dropped), entries for other ids survive, and nothing else is
added. -/
theorem C9_answer_dedup :
    ∀ (s : AppState) (g : Option (Option ExamResult)) (r : Option GradeRequest) (s' : AppState),
      Reaches s → step s (Event.nextQuestionEv g) r s' →
      (s'.userAnswers.map UserAnswer.questionId).Nodup ∧
      (∀ q, s.examQuestions[s.currentQuestionIndex]? = some q →
        s'.userAnswers.find? (fun a => a.questionId == q.id) =
          some { questionId := q.id, answer := s.currentAnswer } ∧
        (∀ a ∈ s.userAnswers, a.questionId ≠ q.id → a ∈ s'.userAnswers) ∧
        (∀ a ∈ s'.userAnswers, a ∈ s.userAnswers ∨
          a = { questionId := q.id, answer := s.currentAnswer })) := by
  intro s g r s' hr h
  obtain ⟨-, -, hN⟩ := reaches_inv hr
  obtain ⟨-, -, -, -, -, hpair⟩ := step_next_inv h
  rcases hq : s.examQuestions[s.currentQuestionIndex]? with - | q0
  · rw [handleNextQuestion_noQuestion hq] at hpair
    obtain ⟨-, rfl⟩ := Prod.mk.inj hpair
    refine ⟨hN, ?_⟩
    intro q hq'
    cases hq'
  · by_cases hlt : s.currentQuestionIndex < s.examQuestions.length - 1
    · rw [handleNextQuestion_advance hq hlt] at hpair
      obtain ⟨-, rfl⟩ := Prod.mk.inj hpair
      have huser : (advanceAfter { s with userAnswers := updatedAnswers s q0 }).userAnswers =
          updatedAnswers s q0 := rfl
      refine ⟨?_, ?_⟩
      · rw [huser]
        exact nodup_updatedAnswers q0 hN
      · intro q hq'
        obtain rfl : q0 = q := Option.some.inj hq'
        rw [huser]
        exact ⟨find?_updatedAnswers q0, fun a ha hne2 => mem_updatedAnswers ha hne2,
          fun a ha => mem_of_mem_updatedAnswers ha⟩
    · rw [handleNextQuestion_grade hq hlt] at hpair
      obtain ⟨-, rfl⟩ := Prod.mk.inj hpair
      have huser : (gradeComplete (gradeBegin { s with userAnswers := updatedAnswers s q0 })
          g).userAnswers = updatedAnswers s q0 := by
        rcases g with - | go
        · rfl
        · rcases go with - | res <;> rfl
      refine ⟨?_, ?_⟩
      · rw [huser]
        exact nodup_updatedAnswers q0 hN
      · intro q hq'
        obtain rfl : q0 = q := Option.some.inj hq'
        rw [huser]
        exact ⟨find?_updatedAnswers q0, fun a ha hne2 => mem_updatedAnswers ha hne2,
          fun a ha => mem_of_mem_updatedAnswers ha⟩

/-- Witness for C9: after the concrete final-question step the answers
are duplicate-free and the final answer is stored for question 2. -/
theorem C9_answer_dedup_witness :
    (sDone.userAnswers.map UserAnswer.questionId).Nodup ∧
    sDone.userAnswers.find? (fun a => a.questionId == sampleQ2.id) =
      some { questionId := sampleQ2.id, answer := sAns2.currentAnswer } := by
  have h := C9_answer_dedup sAns2 (some (some sampleResult)) (some sampleReq) sDone
    reaches_sAns2 (by decide)
  exact ⟨h.1, (h.2 sampleQ2 (by decide)).1⟩

/-- Claim C6: grading is delegated entirely to the external model. The
overall score, summary and per-question feedback shown by the results
view are exactly the fields of the ExamResult parsed from the model
response; the application stores the parsed value unchanged and renders
its fields verbatim, altering nothing else (the error message, in
particular, is untouched). -/
theorem C6_grading_passthrough :
    ∀ (s : AppState) (res : ExamResult) (req : GradeRequest) (s' : AppState),
      step s (Event.nextQuestionEv (some (some res))) (some req) s' →
      s'.examResults = some res ∧ s'.error = s.error ∧
      renderExams s' = ExamView.resultsView res.overallScore res.summary res.feedback := by
  intro s res req s' h
  obtain ⟨-, -, -, -, -, hpair⟩ := step_next_inv h
  rcases hq : s.examQuestions[s.currentQuestionIndex]? with - | q
  · rw [handleNextQuestion_noQuestion hq] at hpair
    exact absurd (Prod.mk.inj hpair).1 (by simp)
  · by_cases hlt : s.currentQuestionIndex < s.examQuestions.length - 1
    · rw [handleNextQuestion_advance hq hlt] at hpair
      exact absurd (Prod.mk.inj hpair).1 (by simp)
    · rw [handleNextQuestion_grade hq hlt] at hpair
      obtain ⟨-, rfl⟩ := Prod.mk.inj hpair
      refine ⟨rfl, rfl, ?_⟩
      simp [renderExams, gradeComplete, gradeBegin]

/-- Witness for C6: the concrete run stores and renders the sample result
verbatim. -/
theorem C6_grading_passthrough_witness :
    sDone.examResults = some sampleResult ∧
    renderExams sDone =
      ExamView.resultsView sampleResult.overallScore sampleResult.summary sampleResult.feedback := by
  have h := C6_grading_passthrough sAns2 sampleResult sampleReq sDone (by decide)
  exact ⟨h.1, h.2.2⟩

/-- Claim C7: every request any activity sends to the model API carries
the model identifier gemini-2.5-flash; the enumeration ApiCall covers all
sixteen call sites of src/index.tsx (direct generateContent calls, the
chat session, and the selection-translation popup), and all of them go
through the single GoogleGenAI client. -/
theorem C7_single_model : ∀ c : ApiCall, (requestOf c).model = "gemini-2.5-flash" := by
  intro c
  cases c <;> rfl

/-- Claim C8 counterexample: the claim says no two model requests can be
in flight at the same time. Twice refuted: the mouseup translation popup
handler consults no loading flag, so a popup request can be started while
an exam-creation request is pending (pOverlap, two requests outstanding);
and starting an exam, visiting the conversation view (whose initializeChat
resets isLoading synchronously), returning to the exams view and clicking
Start Exam again puts even two exam-creation requests in flight at once
(pTwoStarts). -/
theorem C8_counterexample :
    (AReaches pOverlap ∧ pOverlap.pendingStart = 1 ∧ pOverlap.pendingPopup = 1 ∧
      1 < pOverlap.pendingStart + pOverlap.pendingGrade + pOverlap.pendingPopup) ∧
    (AReaches pTwoStarts ∧ pTwoStarts.pendingStart = 2) :=
  ⟨⟨areaches_pOverlap, by decide, by decide, by decide⟩, areaches_pTwoStarts, by decide⟩

/-- Claim C8 (amended): the application does not bound its outstanding
requests: a popup translation can overlap an exam request, and navigating
away mid-creation and back (through a view whose loader logic resets
isLoading) lets even two exam-creation requests overlap. What remains
true: any single event starts at most one new request (the total number
in flight grows by at most one per step), and as long as interaction
stays within the exam flow (no navigation to other activities, hence no
generator requests) the isLoading flag and phase guards keep at most one
exam request (creation or grading) outstanding. -/
theorem C8_exam_request_serialization :
    (∀ (p : PState) (e : AEvent) (p' : PState), astepFn p e = some p' →
      totalPending p' ≤ totalPending p + 1) ∧
    (∀ p : PState, ExamFlowReaches p → p.pendingStart + p.pendingGrade ≤ 1) :=
  ⟨fun _ _ _ h => astep_totalPending h, fun _ h => (examFlowReaches_loadInv h).1⟩

/-- Witness for the amended C8: the overlap state is reachable within the
exam flow and still has only one exam request in flight, and the popup
step to it started a single new request. -/
theorem C8_exam_request_serialization_witness :
    pOverlap.pendingStart + pOverlap.pendingGrade ≤ 1 ∧
    totalPending pOverlap ≤ totalPending pStartPending + 1 :=
  ⟨C8_exam_request_serialization.2 pOverlap examFlowReaches_pOverlap,
    C8_exam_request_serialization.1 pStartPending AEvent.beginPopupA pOverlap (by decide)⟩

/-- Claim C1 counterexample: the claim says no transition out of
in-progress other than handleNextQuestion on the last question exists,
but navigating to a non-exam view while an exam is in progress moves
examState straight back to setup (changeView, src/index.tsx line 179):
from the reachable in-progress state sInProg, the changeView home event
steps to a setup state. -/
theorem C1_counterexample :
    Reaches sInProg ∧ sInProg.examState = ExamState.inProgress ∧
    step sInProg (Event.changeViewEv View.home) none sLeft ∧
    sLeft.examState = ExamState.setup :=
  ⟨reaches_sInProg, by decide, by decide, by decide⟩

/-- Claim C1 (amended): examState moves from setup to in-progress only
via a startExam whose response parses, and setup never jumps straight to
results; in-progress reaches results only via handleNextQuestion on the
last question with a successful grading response; but in-progress has
further exits to setup: navigating to a non-exam view, and a last-question
handleNextQuestion whose grading fails. -/
theorem C1_exam_state_machine :
    ∀ (s : AppState) (e : Event) (r : Option GradeRequest) (s' : AppState), step s e r s' →
      ((s.examState = ExamState.setup ∧ s'.examState = ExamState.inProgress) →
        ∃ qs, e = Event.startExamEv (some (some qs)) ∧ s'.examQuestions = qs) ∧
      (s.examState = ExamState.setup → s'.examState ≠ ExamState.results) ∧
      ((s.examState = ExamState.inProgress ∧ s'.examState = ExamState.results) →
        ∃ res g, e = Event.nextQuestionEv g ∧ g = some (some res) ∧
          ¬ s.currentQuestionIndex < s.examQuestions.length - 1 ∧ s'.examResults = some res) ∧
      ((s.examState = ExamState.inProgress ∧ s'.examState ≠ ExamState.inProgress) →
        ((∃ v, e = Event.changeViewEv v ∧ v ≠ View.exams ∧ s'.examState = ExamState.setup) ∨
         (∃ g, e = Event.nextQuestionEv g ∧
            ¬ s.currentQuestionIndex < s.examQuestions.length - 1))) := by
  intro s e r s' h
  cases e with
  | changeViewEv v =>
      obtain ⟨-, rfl⟩ := step_changeView_inv h
      by_cases hv : v = View.exams
      · have hEq : (changeView v s).examState = s.examState := by simp [changeView, hv]
        refine ⟨?_, ?_, ?_, ?_⟩
        · rintro ⟨h1, h2⟩
          rw [hEq, h1] at h2
          cases h2
        · intro h1 h2
          rw [hEq, h1] at h2
          cases h2
        · rintro ⟨h1, h2⟩
          rw [hEq, h1] at h2
          cases h2
        · rintro ⟨h1, h2⟩
          rw [hEq] at h2
          exact absurd h1 h2
      · have hEq : (changeView v s).examState = ExamState.setup := by simp [changeView, hv]
        refine ⟨?_, ?_, ?_, ?_⟩
        · rintro ⟨-, h2⟩
          rw [hEq] at h2
          cases h2
        · rintro - h2
          rw [hEq] at h2
          cases h2
        · rintro ⟨-, h2⟩
          rw [hEq] at h2
          cases h2
        · rintro ⟨-, -⟩
          exact Or.inl ⟨v, rfl, hv, hEq⟩
  | setExamType t =>
      obtain ⟨-, hSt, -, -, rfl⟩ := step_setType_inv h
      refine ⟨?_, ?_, ?_, ?_⟩
      · rintro ⟨-, h2⟩
        have h2' : s.examState = ExamState.inProgress := h2
        rw [hSt] at h2'
        cases h2'
      · rintro - h2
        have h2' : s.examState = ExamState.results := h2
        rw [hSt] at h2'
        cases h2'
      · rintro ⟨h1, -⟩
        rw [hSt] at h1
        cases h1
      · rintro ⟨h1, -⟩
        rw [hSt] at h1
        cases h1
  | setExamQuestions n =>
      obtain ⟨-, hSt, -, -, rfl⟩ := step_setQuestions_inv h
      refine ⟨?_, ?_, ?_, ?_⟩
      · rintro ⟨-, h2⟩
        have h2' : s.examState = ExamState.inProgress := h2
        rw [hSt] at h2'
        cases h2'
      · rintro - h2
        have h2' : s.examState = ExamState.results := h2
        rw [hSt] at h2'
        cases h2'
      · rintro ⟨h1, -⟩
        rw [hSt] at h1
        cases h1
      · rintro ⟨h1, -⟩
        rw [hSt] at h1
        cases h1
  | startExamEv resp =>
      obtain ⟨-, hSt, -, -, rfl⟩ := step_start_inv h
      rcases resp with - | o
      · refine ⟨?_, ?_, ?_, ?_⟩
        · rintro ⟨-, h2⟩
          have h2' : s.examState = ExamState.inProgress := h2
          rw [hSt] at h2'
          cases h2'
        · rintro - h2
          have h2' : s.examState = ExamState.results := h2
          rw [hSt] at h2'
          cases h2'
        · rintro ⟨h1, -⟩
          rw [hSt] at h1
          cases h1
        · rintro ⟨h1, -⟩
          rw [hSt] at h1
          cases h1
      · rcases o with - | qs
        · refine ⟨?_, ?_, ?_, ?_⟩
          · rintro ⟨-, h2⟩
            have h2' : s.examState = ExamState.inProgress := h2
            rw [hSt] at h2'
            cases h2'
          · rintro - h2
            have h2' : s.examState = ExamState.results := h2
            rw [hSt] at h2'
            cases h2'
          · rintro ⟨h1, -⟩
            rw [hSt] at h1
            cases h1
          · rintro ⟨h1, -⟩
            rw [hSt] at h1
            cases h1
        · refine ⟨?_, ?_, ?_, ?_⟩
          · rintro -
            exact ⟨qs, rfl, rfl⟩
          · rintro - h2
            have h2' : ExamState.inProgress = ExamState.results := h2
            cases h2'
          · rintro ⟨h1, -⟩
            rw [hSt] at h1
            cases h1
          · rintro ⟨h1, -⟩
            rw [hSt] at h1
            cases h1
  | answerInputEv a =>
      obtain ⟨hSt, -, rfl⟩ := step_answer_inv h
      refine ⟨?_, ?_, ?_, ?_⟩
      · rintro ⟨h1, -⟩
        rw [h1] at hSt
        cases hSt
      · intro h1
        rw [h1] at hSt
        cases hSt
      · rintro ⟨-, h2⟩
        have h2' : s.examState = ExamState.results := h2
        rw [hSt] at h2'
        cases h2'
      · rintro ⟨-, h2⟩
        exact absurd (show ({ s with currentAnswer := a }).examState = ExamState.inProgress from hSt) h2
  | nextQuestionEv g =>
      obtain ⟨-, hSt, -, -, -, hpair⟩ := step_next_inv h
      have hc1 : s.examState = ExamState.setup ∧ s'.examState = ExamState.inProgress →
          ∃ qs, Event.nextQuestionEv g = Event.startExamEv (some (some qs)) ∧ s'.examQuestions = qs := by
        rintro ⟨h1, -⟩
        rw [h1] at hSt
        cases hSt
      have hc2 : s.examState = ExamState.setup → s'.examState ≠ ExamState.results := by
        intro h1
        rw [h1] at hSt
        cases hSt
      refine ⟨hc1, hc2, ?_, ?_⟩ <;> clear hc1 hc2
      all_goals
        rcases hq : s.examQuestions[s.currentQuestionIndex]? with - | q
      · rw [handleNextQuestion_noQuestion hq] at hpair
        obtain ⟨-, rfl⟩ := Prod.mk.inj hpair
        rintro ⟨-, h2⟩
        rw [hSt] at h2
        cases h2
      · by_cases hlt : s.currentQuestionIndex < s.examQuestions.length - 1
        · rw [handleNextQuestion_advance hq hlt] at hpair
          obtain ⟨-, rfl⟩ := Prod.mk.inj hpair
          rintro ⟨-, h2⟩
          have h2' : s.examState = ExamState.results := h2
          rw [hSt] at h2'
          cases h2'
        · rw [handleNextQuestion_grade hq hlt] at hpair
          obtain ⟨-, rfl⟩ := Prod.mk.inj hpair
          rcases g with - | go
          · rintro ⟨-, h2⟩
            have h2' : ExamState.setup = ExamState.results := h2
            cases h2'
          · rcases go with - | res
            · rintro ⟨-, h2⟩
              have h2' : ExamState.setup = ExamState.results := h2
              cases h2'
            · rintro ⟨-, -⟩
              exact ⟨res, some (some res), rfl, rfl, hlt, rfl⟩
      · rw [handleNextQuestion_noQuestion hq] at hpair
        obtain ⟨-, rfl⟩ := Prod.mk.inj hpair
        rintro ⟨-, h2⟩
        exact absurd hSt h2
      · by_cases hlt : s.currentQuestionIndex < s.examQuestions.length - 1
        · rw [handleNextQuestion_advance hq hlt] at hpair
          obtain ⟨-, rfl⟩ := Prod.mk.inj hpair
          rintro ⟨-, h2⟩
          exact absurd (show (advanceAfter { s with userAnswers := updatedAnswers s q }).examState =
            ExamState.inProgress from hSt) h2
        · rw [handleNextQuestion_grade hq hlt] at hpair
          obtain ⟨-, rfl⟩ := Prod.mk.inj hpair
          rintro ⟨-, -⟩
          exact Or.inr ⟨g, rfl, hlt⟩
  | takeAnotherEv =>
      obtain ⟨-, hSt, -, -, -, rfl⟩ := step_takeAnother_inv h
      refine ⟨?_, ?_, ?_, ?_⟩
      · rintro ⟨h1, -⟩
        rw [h1] at hSt
        cases hSt
      · intro h1
        rw [h1] at hSt
        cases hSt
      · rintro ⟨h1, -⟩
        rw [h1] at hSt
        cases hSt
      · rintro ⟨h1, -⟩
        rw [h1] at hSt
        cases hSt

/-- Witness for the amended C1: the concrete successful startExam step is
the entry into in-progress, delivering exactly its parsed question list. -/
theorem C1_exam_state_machine_witness :
    ∃ qs, Event.startExamEv (some (some [sampleQ1, sampleQ2])) = Event.startExamEv (some (some qs)) ∧
      sInProg.examQuestions = qs :=
  (C1_exam_state_machine sExams (Event.startExamEv (some (some [sampleQ1, sampleQ2]))) none
    sInProg (by decide)).1 ⟨by decide, by decide⟩

/-- Claim C4 counterexample: the claim says a failed model call reports
failure via the generic error string alone and leaves the state otherwise
unchanged; but a failed grading call sets the specific grading error
message (not the generic one) and moves examState from in-progress back
to setup, abandoning the run: refuted at the reachable answered state
sAns2. -/
theorem C4_counterexample :
    Reaches sAns2 ∧ sAns2.examState = ExamState.inProgress ∧
    step sAns2 (Event.nextQuestionEv none) (some sampleReq) sFailed ∧
    sFailed.error = "Failed to grade the exam. Please try again later." ∧
    sFailed.error ≠ "An error occurred. Please try again." ∧
    sFailed.examState = ExamState.setup :=
  ⟨reaches_sAns2, by decide, by decide, by decide, by decide, by decide⟩

/-- Claim C4 (amended): an API failure makes generateContent set the
generic message, and a startExam API failure surfaces exactly that
message with the phase unchanged (the run fields were already cleared);
a creation parse failure sets its own message, phase unchanged; a grading
failure overwrites the generic message with the grading message and
returns the phase to setup, keeping the question list and the collected
answers in memory but abandoning the run. -/
theorem C4_failure_reporting :
    ∀ (s s' : AppState),
      (step s (Event.startExamEv none) none s' →
        s'.error = "An error occurred. Please try again." ∧
        s'.examState = s.examState ∧ s'.examState = ExamState.setup ∧
        s'.examQuestions = [] ∧ s'.userAnswers = [] ∧ s'.examResults = none) ∧
      (step s (Event.startExamEv (some none)) none s' →
        s'.error = "Failed to create the exam. Please try again." ∧
        s'.examState = s.examState ∧ s'.examState = ExamState.setup) ∧
      (∀ req, step s (Event.nextQuestionEv none) (some req) s' →
        s'.error = "Failed to grade the exam. Please try again later." ∧
        s'.examState = ExamState.setup ∧
        s'.examQuestions = s.examQuestions ∧ s'.userAnswers = req.answers) := by
  intro s s'
  refine ⟨?_, ?_, ?_⟩
  · intro h
    obtain ⟨-, hSt, -, -, rfl⟩ := step_start_inv h
    exact ⟨rfl, rfl, hSt, rfl, rfl, rfl⟩
  · intro h
    obtain ⟨-, hSt, -, -, rfl⟩ := step_start_inv h
    exact ⟨rfl, rfl, hSt⟩
  · intro req h
    obtain ⟨-, -, -, -, -, hpair⟩ := step_next_inv h
    rcases hq : s.examQuestions[s.currentQuestionIndex]? with - | q
    · rw [handleNextQuestion_noQuestion hq] at hpair
      exact absurd (Prod.mk.inj hpair).1 (by simp)
    · by_cases hlt : s.currentQuestionIndex < s.examQuestions.length - 1
      · rw [handleNextQuestion_advance hq hlt] at hpair
        exact absurd (Prod.mk.inj hpair).1 (by simp)
      · rw [handleNextQuestion_grade hq hlt] at hpair
        obtain ⟨hreq, rfl⟩ := Prod.mk.inj hpair
        obtain rfl : req = { questions := s.examQuestions, answers := updatedAnswers s q } :=
          Option.some.inj hreq
        exact ⟨rfl, rfl, rfl, rfl⟩

/-- Witness for the amended C4: the concrete grading failure ends in
setup with the grading message, the collected answers still in memory. -/
theorem C4_failure_reporting_witness :
    sFailed.error = "Failed to grade the exam. Please try again later." ∧
    sFailed.examState = ExamState.setup ∧ sFailed.userAnswers = sampleReq.answers := by
  have h := (C4_failure_reporting sAns2 sFailed).2.2 sampleReq (by decide)
  exact ⟨h.1, h.2.1, h.2.2.2.symm ▸ rfl⟩

/-- Claim C10: every startExam call resets the run before fetching:
whatever the outcome of the request, the answers, index, current answer
and previous results are cleared; on success the question list is exactly
the parsed one, and on failure it stays empty, so nothing from a previous
exam can leak into a new one. -/
theorem C10_start_resets :
    ∀ (s : AppState) (resp : Option (Option (List ExamQuestion))) (r : Option GradeRequest)
      (s' : AppState), step s (Event.startExamEv resp) r s' →
      s'.userAnswers = [] ∧ s'.currentQuestionIndex = 0 ∧ s'.currentAnswer = "" ∧
      s'.examResults = none ∧
      (∀ qs, resp = some (some qs) → s'.examQuestions = qs ∧ s'.examState = ExamState.inProgress) ∧
      ((resp = none ∨ resp = some none) → s'.examQuestions = [] ∧ s'.examState = s.examState) := by
  intro s resp r s' h
  obtain ⟨-, hSt, -, -, rfl⟩ := step_start_inv h
  rcases resp with - | o
  · refine ⟨rfl, rfl, rfl, rfl, ?_, fun _ => ⟨rfl, rfl⟩⟩
    intro qs hq
    cases hq
  · rcases o with - | qs
    · refine ⟨rfl, rfl, rfl, rfl, ?_, fun _ => ⟨rfl, rfl⟩⟩
      intro qs hq
      simp at hq
    · refine ⟨rfl, rfl, rfl, rfl, ?_, ?_⟩
      · intro qs' hq
        obtain rfl : qs' = qs := by
          injection hq with h1
          injection h1 with h2
          exact h2.symm
        exact ⟨rfl, rfl⟩
      · intro hor
        rcases hor with hh | hh <;> simp at hh

/-- Witness for C10: the concrete successful start of the two-question
run leaves a clean slate. -/
theorem C10_start_resets_witness :
    sInProg.userAnswers = [] ∧ sInProg.currentQuestionIndex = 0 ∧ sInProg.examResults = none := by
  have h := C10_start_resets sExams (some (some [sampleQ1, sampleQ2])) none sInProg (by decide)
  exact ⟨h.1, h.2.1, h.2.2.2.1⟩

end LingoSphere
